import Mathlib

/-!
Verification of the orchestration core of the `actual_code` repository.

This file gives a shallow embedding, in Lean 4, of the pure control logic
of the repository's orchestration pipeline:

* `utils/json_parser.py` — the response extractor
  (`extract_json_from_response`, `create_default_response`);
* `agents/qa_validator_agent.py` — the post-decode logic of
  `validate_problem` (approval recomputation and failure fallback);
* `agents/dependency_analyzer_agent.py` — prompt construction and the
  decode-failure default record of `analyze`;
* `agents/problem_creator_agent.py` — the decode-failure default record
  of `create_problem` and the refinement-mode switch;
* `orchestrator.py` — `_rank_suggestions`, the `ranked_suggestions`
  field of `_synthesize_single_report`, `_validate_and_improve`,
  `_create_improvement_instructions`, `_compile_final_result`;
* `utils/a2a_protocol.py` — the notification channel
  (`send_message`, `broadcast_message`, `send_response`,
  `_log_message`, `get_message_history`, `clear_history`).

Modelling conventions, used throughout:

* Python `dict`s decoded from JSON are modelled by the inductive type
  `Json`; a dict is an association list with unique keys in insertion
  order, as in CPython.  `dict.get(k, d)` is `pyGetD`, assignment
  `d[k] = v` (and `{**d, k: v}`) is `pySet`: an existing key keeps its
  position and gets the new value, a fresh key is appended.
* JSON numbers are modelled as integers only.  Every number appearing
  in the repository's control logic (scores, counts, character budgets)
  is an integer; a float literal in model output is treated by the
  embedded `json.loads` model as a parse failure.
* Python truthiness on decoded JSON values is `pyTruthy` (`None`,
  `False`, `0`, `""`, `[]`, `{}` are falsy).
* Code that would raise a Python exception on an argument outside the
  shapes produced by the repository (e.g. calling `.get` on a decoded
  non-dict) is embedded in `Except String`, where `.error` marks the
  raised exception.
* `str(x)` on a decoded value is `pyStr`; for strings, integers and
  booleans it agrees with Python exactly, and those are the only shapes
  the repository feeds to it.
-/

set_option autoImplicit false

namespace ActualCode

/-- A decoded JSON value, the shape returned by the embedded
`json.loads`.  Objects are association lists in insertion order with
unique keys (CPython `dict`).  Numbers are modelled as integers. -/
inductive Json where
  | null : Json
  | bool (b : Bool) : Json
  | num (n : Int) : Json
  | str (s : String) : Json
  | arr (elems : List Json) : Json
  | obj (entries : List (String × Json)) : Json
deriving Repr, Inhabited

/-- A Python dict whose values are decoded JSON, in insertion order. -/
abbrev PyDict := List (String × Json)

/-- First value bound to `k` in an association list, if any
(CPython dicts have unique keys, so first = only). -/
def alLookup (kvs : PyDict) (k : String) : Option Json :=
  match kvs with
  | [] => none
  | (k', v) :: rest => if k' = k then some v else alLookup rest k

/-- `d.get(k, default)` on a Python dict. -/
def pyGetD (kvs : PyDict) (k : String) (default : Json) : Json :=
  (alLookup kvs k).getD default

/-- `k in d` on a Python dict. -/
def alContains (kvs : PyDict) (k : String) : Bool :=
  (alLookup kvs k).isSome

/-- `d[k] = v` (also `{**d, k: v}`) on a Python dict: an existing key
keeps its position and receives the new value, a fresh key is appended
at the end. -/
def pySet (kvs : PyDict) (k : String) (v : Json) : PyDict :=
  match kvs with
  | [] => [(k, v)]
  | (k', v') :: rest =>
      if k' = k then (k', v) :: rest else (k', v') :: pySet rest k v

/-- `del d[k]` on a Python dict. -/
def alErase (kvs : PyDict) (k : String) : PyDict :=
  match kvs with
  | [] => []
  | (k', v') :: rest => if k' = k then rest else (k', v') :: alErase rest k

/-- Python truthiness of a decoded JSON value: `None`, `False`, `0`,
`""`, `[]` and an empty dict are falsy, everything else is truthy. -/
def pyTruthy : Json → Bool
  | .null => false
  | .bool b => b
  | .num n => n ≠ 0
  | .str s => s ≠ ""
  | .arr l => !l.isEmpty
  | .obj kvs => !kvs.isEmpty

/-- Value usable as a Python `int` in an arithmetic comparison:
an `int` is itself, a `bool` is `0`/`1` (Python `bool` is an `int`
subtype); any other decoded value raises `TypeError` when compared
with an `int`, which the embedding signals with `none`. -/
def pyIntLike : Json → Option Int
  | .num n => some n
  | .bool b => some (if b then 1 else 0)
  | _ => none

/-- `str(x)` of a decoded JSON value.  Strings, integers and booleans
follow Python exactly (`str`, decimal digits, `True`/`False`,
`None`); for lists and dicts — shapes the repository never feeds to
`str` — the embedding uses a canonical bracketed rendering in place of
Python `repr`. -/
def pyStr : Json → String
  | .null => "None"
  | .bool true => "True"
  | .bool false => "False"
  | .num n => toString n
  | .str s => s
  | .arr _ => "[...]"
  | .obj _ => "\x7b...\x7d"

/-- `len(x)` of a decoded JSON container (list, string, dict). -/
def pyLen : Json → Nat
  | .arr l => l.length
  | .str s => s.length
  | .obj kvs => kvs.length
  | _ => 0

/-! ### Character-level helpers

The extractor in `utils/json_parser.py` works on raw text; the
embedding works on `List Char` and wraps results back into `String`.
Brace characters are named constants so that the scanning code below
mirrors the Python loop literally. -/

/-- The character `{`. -/
def lbrace : Char := Char.ofNat 123

/-- The character `}`. -/
def rbrace : Char := Char.ofNat 125

/-- Whitespace for JSON tokenisation (`json.loads` strict mode):
space, tab, newline, carriage return. -/
def jsonWsChar (c : Char) : Bool :=
  c = ' ' || c = '\t' || c = '\n' || c = '\r'

/-- Whitespace for Python `str.strip()`: the ASCII whitespace
characters (space, tab, newline, carriage return, vertical tab,
form feed). -/
def pySpaceChar (c : Char) : Bool :=
  c = ' ' || c = '\t' || c = '\n' || c = '\r' || c = Char.ofNat 11 || c = Char.ofNat 12

/-- Drop leading JSON whitespace. -/
def skipWs : List Char → List Char
  | [] => []
  | c :: cs => if jsonWsChar c then skipWs cs else c :: cs

/-- Python `str.strip()` on a character list. -/
def pyStripList (cs : List Char) : List Char :=
  ((cs.dropWhile pySpaceChar).reverse.dropWhile pySpaceChar).reverse

/-- Python `str.strip()`. -/
def pyStrip (s : String) : String :=
  String.mk (pyStripList s.data)

/-- Python slicing `s[:n]` (code-point based, like Python `str`). -/
def pySlice (s : String) (n : Nat) : String :=
  String.mk (s.data.take n)

/-- Python `str.lower()`, character by character (exact on ASCII,
the only range the repository's titles use). -/
def pyToLower (s : String) : String :=
  String.mk (s.data.map Char.toLower)

/-- `needle` is a prefix of `hay` (boolean). -/
def isPrefixOfB : List Char → List Char → Bool
  | [], _ => true
  | _ :: _, [] => false
  | a :: as, b :: bs => a = b && isPrefixOfB as bs

/-- Index of the first occurrence of `needle` in `hay`
(Python `str.find` / the position located by `in`). -/
def findSub (hay needle : List Char) : Option Nat :=
  if isPrefixOfB needle hay then some 0
  else
    match hay with
    | [] => none
    | _ :: t => (findSub t needle).map (· + 1)

/-! ### Model of `json.loads`

A strict recursive-descent JSON parser over `List Char` with explicit
fuel, modelling Python's `json.loads`: objects, arrays, strings with
the standard escapes, integer numbers, `true`/`false`/`null`.
Numbers with a fractional part or exponent are treated as a parse
failure (the model carries integers only; no score, count or budget
in this repository is fractional).  Duplicate object keys follow
CPython `dict` insertion: the first occurrence keeps its position,
the last value wins. -/

/-- Value of a hexadecimal digit. -/
def hexVal (c : Char) : Option Nat :=
  if '0' ≤ c ∧ c ≤ '9' then some (c.toNat - '0'.toNat)
  else if 'a' ≤ c ∧ c ≤ 'f' then some (c.toNat - 'a'.toNat + 10)
  else if 'A' ≤ c ∧ c ≤ 'F' then some (c.toNat - 'A'.toNat + 10)
  else none

/-- Parse the body of a JSON string after the opening quote,
accumulating characters in reverse. -/
def parseStrAux : Nat → List Char → List Char → Option (String × List Char)
  | 0, _, _ => none
  | fuel + 1, acc, cs =>
    match cs with
    | [] => none
    | '"' :: rest => some (String.mk acc.reverse, rest)
    | '\\' :: e :: rest =>
      match e with
      | '"' => parseStrAux fuel ('"' :: acc) rest
      | '\\' => parseStrAux fuel ('\\' :: acc) rest
      | '/' => parseStrAux fuel ('/' :: acc) rest
      | 'b' => parseStrAux fuel (Char.ofNat 8 :: acc) rest
      | 'f' => parseStrAux fuel (Char.ofNat 12 :: acc) rest
      | 'n' => parseStrAux fuel ('\n' :: acc) rest
      | 'r' => parseStrAux fuel ('\r' :: acc) rest
      | 't' => parseStrAux fuel ('\t' :: acc) rest
      | 'u' =>
        match rest with
        | h1 :: h2 :: h3 :: h4 :: rest' =>
          match hexVal h1, hexVal h2, hexVal h3, hexVal h4 with
          | some a, some b, some c, some d =>
            let n := ((a * 16 + b) * 16 + c) * 16 + d
            if n.isValidChar then
              parseStrAux fuel (Char.ofNat n :: acc) rest'
            else none
          | _, _, _, _ => none
        | _ => none
      | _ => none
    | c :: rest =>
      if c.toNat < 32 then none else parseStrAux fuel (c :: acc) rest

/-- Digits to a natural number, given the digits in order. -/
def digitsToNat (ds : List Char) : Nat :=
  ds.foldl (fun n c => n * 10 + (c.toNat - '0'.toNat)) 0

/-- Parse a JSON integer (strict grammar: optional minus, `0` or a
nonzero digit followed by digits; a following `.`, `e` or `E` would
make it a float, which the model rejects). -/
def parseIntTok (cs : List Char) : Option (Json × List Char) :=
  let (neg, cs') :=
    match cs with
    | '-' :: t => (true, t)
    | _ => (false, cs)
  let ds := cs'.takeWhile (·.isDigit)
  let rest := cs'.dropWhile (·.isDigit)
  let ok : Bool :=
    match ds with
    | [] => false
    | ['0'] => true
    | '0' :: _ :: _ => false
    | _ => true
  let isFloatNext : Bool :=
    match rest with
    | '.' :: _ => true
    | 'e' :: _ => true
    | 'E' :: _ => true
    | _ => false
  if ok && !isFloatNext then
    let n : Int := Int.ofNat (digitsToNat ds)
    some (.num (if neg then -n else n), rest)
  else none

mutual

/-- Parse one JSON value. -/
def parseValue : Nat → List Char → Option (Json × List Char)
  | 0, _ => none
  | fuel + 1, cs =>
    match cs with
    | [] => none
    | c :: rest =>
      if c = lbrace then parseObjBody fuel [] (skipWs rest)
      else if c = '[' then parseArrBody fuel [] (skipWs rest)
      else if c = '"' then
        (parseStrAux (rest.length + 1) [] rest).map fun (s, r) => (.str s, r)
      else if c = 't' then
        if isPrefixOfB ['r', 'u', 'e'] rest then some (.bool true, rest.drop 3)
        else none
      else if c = 'f' then
        if isPrefixOfB ['a', 'l', 's', 'e'] rest then some (.bool false, rest.drop 4)
        else none
      else if c = 'n' then
        if isPrefixOfB ['u', 'l', 'l'] rest then some (.null, rest.drop 3)
        else none
      else if c = '-' || c.isDigit then parseIntTok cs
      else none

/-- Parse the body of a JSON array after `[`, whitespace skipped. -/
def parseArrBody : Nat → List Json → List Char → Option (Json × List Char)
  | 0, _, _ => none
  | fuel + 1, acc, cs =>
    match cs with
    | ']' :: rest => if acc.isEmpty then some (.arr [], rest) else none
    | _ =>
      match parseValue fuel cs with
      | none => none
      | some (v, rest) =>
        match skipWs rest with
        | ',' :: rest' => parseArrBody fuel (v :: acc) (skipWs rest')
        | ']' :: rest' => some (.arr (v :: acc).reverse, rest')
        | _ => none

/-- Parse the body of a JSON object after `{`, whitespace skipped.
Entries accumulate with `pySet`, matching CPython `dict` insertion. -/
def parseObjBody : Nat → PyDict → List Char → Option (Json × List Char)
  | 0, _, _ => none
  | fuel + 1, acc, cs =>
    match cs with
    | c :: rest =>
      if c = rbrace then
        if acc.isEmpty then some (.obj [], rest) else none
      else if c = '"' then
        match parseStrAux (rest.length + 1) [] rest with
        | none => none
        | some (k, rest') =>
          match skipWs rest' with
          | ':' :: rest'' =>
            match parseValue fuel (skipWs rest'') with
            | none => none
            | some (v, rest''') =>
              let acc' := pySet acc k v
              match skipWs rest''' with
              | ',' :: r => parseObjBody fuel acc' (skipWs r)
              | c' :: r =>
                if c' = rbrace then some (.obj acc', r) else none
              | [] => none
          | _ => none
      else none
    | [] => none

end

/-- Model of Python `json.loads`: parse exactly one JSON document,
allowing surrounding whitespace, rejecting trailing data. -/
def loads (s : String) : Option Json :=
  let cs := skipWs s.data
  match parseValue (cs.length + 1) cs with
  | none => none
  | some (j, rest) => if (skipWs rest).isEmpty then some j else none

/-! ### `utils/json_parser.py` -/

/-- The fence marker for a labelled markdown code block. -/
def fenceJson : List Char := "```json".data

/-- The fence marker for a plain markdown code block. -/
def fence : List Char := "```".data

/-- The running tail of the brace scan of `extract_json_from_response`
(the `for i, char in enumerate(json_str)` loop): `count` is
`brace_count`, `i` the current index, `lvp` the `last_valid_pos`
recorded so far. -/
def lastValidPosAux : Int → Nat → Nat → List Char → Nat
  | _, _, lvp, [] => lvp
  | count, i, lvp, c :: cs =>
    if c = lbrace then lastValidPosAux (count + 1) (i + 1) lvp cs
    else if c = rbrace then
      if count - 1 = 0 then lastValidPosAux (count - 1) (i + 1) (i + 1) cs
      else lastValidPosAux (count - 1) (i + 1) lvp cs
    else lastValidPosAux count (i + 1) lvp cs

/-- `last_valid_pos` as computed by the brace-counting loop of
`extract_json_from_response`: one past the position of the last `}`
at which the running brace count returns to zero (`0` when there is
no such position). -/
def lastValidPos (cs : List Char) : Nat :=
  lastValidPosAux 0 0 0 cs

/-- Contribution of one character to the running brace count. -/
def braceDelta (c : Char) : Int :=
  if c = lbrace then 1 else if c = rbrace then -1 else 0

/-- Running brace count of a character list (`{` adds one, `}`
subtracts one, every other character is neutral). -/
def braceDepth : List Char → Int
  | [] => 0
  | c :: cs => braceDelta c + braceDepth cs

/-- Position `i` is a zero return of the brace scan: some prefix of
length `i` ends in `}` and has running brace count zero.  These are
exactly the positions at which the Python loop records
`last_valid_pos = i`. -/
def ZeroReturn (cs : List Char) (i : Nat) : Prop :=
  0 < i ∧ i ≤ cs.length ∧ cs[i - 1]? = some rbrace ∧ braceDepth (cs.take i) = 0

/-- `extract_json_from_response` from `utils/json_parser.py`:
strip the text, cut out the first fenced code block if one is present,
try `json.loads`; on failure drop everything before the first `{`,
truncate at `last_valid_pos` when that position is positive and
strictly before the end, and try `json.loads` once more.  Returns
`none` (Python `None`) when both parses fail. -/
def extract_json_from_response (response : String) : Option Json :=
  let s0 := pyStripList response.data
  let json_str :=
    match findSub s0 fenceJson with
    | some i =>
      let after := s0.drop (i + 7)
      match findSub after fence with
      | some j => pyStripList (after.take j)
      | none => s0
    | none =>
      match findSub s0 fence with
      | some i =>
        let after := s0.drop (i + 3)
        match findSub after fence with
        | some j => pyStripList (after.take j)
        | none => s0
      | none => s0
  match loads (String.mk json_str) with
  | some j => some j
  | none =>
    let js1 :=
      match findSub json_str [lbrace] with
      | some i => json_str.drop i
      | none => json_str
    let lvp := lastValidPos js1
    let js2 := if 0 < lvp ∧ lvp < js1.length then js1.take lvp else js1
    loads (String.mk js2)

/-- `create_default_response` from `utils/json_parser.py`: the
FailureRecord `{error, raw_response (first 1000 chars), parse_failed: true}`.
No caller in the repository invokes it; every agent builds its own
schema default instead. -/
def create_default_response (error_msg : String) (raw_response : String) : Json :=
  .obj [("error", .str error_msg),
        ("raw_response", .str (if raw_response ≠ "" then pySlice raw_response 1000 else "")),
        ("parse_failed", .bool true)]

/-! ### Model of `json.dumps(x, indent=2)`

Used by the Dependency-Analyzer to serialize the dependency listing
before truncation.  Containers print one element per line, nested
blocks indented by two further spaces; empty containers print as
`[]` / `{}`; strings print with the standard JSON escapes, non-ASCII
characters as lowercase `\uXXXX` (`ensure_ascii`, with the
simplification that a code point above `0xFFFF` prints its low 16
bits rather than a surrogate pair — no claim touches such input). -/

/-- Lowercase hexadecimal digit. -/
def hexDigit (n : Nat) : Char :=
  if n < 10 then Char.ofNat ('0'.toNat + n) else Char.ofNat ('a'.toNat + (n - 10))

/-- JSON escape of one character under `ensure_ascii`. -/
def jsonEscapeChar (c : Char) : List Char :=
  if c = '"' then ['\\', '"']
  else if c = '\\' then ['\\', '\\']
  else if c = '\n' then ['\\', 'n']
  else if c = '\r' then ['\\', 'r']
  else if c = '\t' then ['\\', 't']
  else if c = Char.ofNat 8 then ['\\', 'b']
  else if c = Char.ofNat 12 then ['\\', 'f']
  else if c.toNat < 32 || c.toNat > 126 then
    let n := c.toNat % 65536
    ['\\', 'u', hexDigit (n / 4096), hexDigit (n / 256 % 16), hexDigit (n / 16 % 16), hexDigit (n % 16)]
  else [c]

/-- A JSON-quoted string. -/
def jsonQuote (s : String) : List Char :=
  '"' :: (s.data.map jsonEscapeChar).flatten ++ ['"']

/-- `indent * level` spaces for `indent=2`. -/
def indentChars (level : Nat) : List Char :=
  List.replicate (2 * level) ' '

mutual

/-- `json.dumps(v, indent=2)` at nesting `level`. -/
def dumpsVal : Nat → Json → List Char
  | _, .null => "null".data
  | _, .bool true => "true".data
  | _, .bool false => "false".data
  | _, .num n => (toString n).data
  | _, .str s => jsonQuote s
  | _, .arr [] => "[]".data
  | level, .arr (x :: xs) =>
    '[' :: '\n' :: dumpsElems level x xs ++ '\n' :: indentChars level ++ [']']
  | _, .obj [] => [lbrace, rbrace]
  | level, .obj ((k, v) :: es) =>
    lbrace :: '\n' :: dumpsEntries level k v es ++ '\n' :: indentChars level ++ [rbrace]
termination_by _ v => sizeOf v

/-- The comma-and-newline separated elements of a non-empty array. -/
def dumpsElems (level : Nat) (x : Json) : List Json → List Char
  | [] => indentChars (level + 1) ++ dumpsVal (level + 1) x
  | y :: ys =>
    indentChars (level + 1) ++ dumpsVal (level + 1) x ++ ',' :: '\n' :: dumpsElems level y ys
termination_by l => 1 + sizeOf x + sizeOf l

/-- The comma-and-newline separated entries of a non-empty object. -/
def dumpsEntries (level : Nat) (k : String) (v : Json) : PyDict → List Char
  | [] => indentChars (level + 1) ++ jsonQuote k ++ ':' :: ' ' :: dumpsVal (level + 1) v
  | (k', v') :: fs =>
    indentChars (level + 1) ++ jsonQuote k ++ ':' :: ' ' :: dumpsVal (level + 1) v ++
      ',' :: '\n' :: dumpsEntries level k' v' fs
termination_by l => 1 + sizeOf v + sizeOf l

end

/-- Model of `json.dumps(v, indent=2)`. -/
def pyJsonDumps2 (v : Json) : String :=
  String.mk (dumpsVal 0 v)

/-! ### `agents/dependency_analyzer_agent.py` -/

/-- The keys of `repo_data` that `DependencyAnalyzerAgent.analyze`
reads.  A `none` field models an absent dict key (replaced by the
`.get` default at each use site). -/
structure RepoData where
  repository : Option PyDict
  dependencies : Option Json
  readme : Option String

/-- `deps_summary` from `DependencyAnalyzerAgent.analyze`:
`json.dumps(repo_data.get('dependencies', []), indent=2)[:2000]`. -/
def deps_summary (dependencies : Json) : String :=
  pySlice (pyJsonDumps2 dependencies) 2000

/-- The prompt built by `DependencyAnalyzerAgent.analyze`
(the f-string at lines 84–96 of the source). -/
def dependency_analyzer_prompt (rd : RepoData) : String :=
  "Analyze this tech stack and dependencies:\n\nRepository: " ++
    pyStr (pyGetD (rd.repository.getD []) "name" (.str "Unknown")) ++
    "\nPrimary Language: " ++
    pyStr (pyGetD (rd.repository.getD []) "language" (.str "Unknown")) ++
    "\n\nDependencies:\n" ++
    deps_summary (rd.dependencies.getD (.arr [])) ++
    "\n\nREADME (for context):\n" ++
    pySlice (rd.readme.getD "No README") 500 ++
    "\n\nAnalyze the technology stack, dependency health, and identify integration opportunities for coding challenges.\nReturn ONLY valid JSON matching the specified format."

/-- The default-shaped record returned by
`DependencyAnalyzerAgent.analyze` on decode failure
(lines 144–149). -/
def dependency_analyzer_default (error_msg : Json) : Json :=
  .obj [("tech_stack", .obj [("frameworks", .arr []), ("libraries", .arr []),
                             ("runtime", .str "Unknown"), ("build_tools", .arr [])]),
        ("dependency_health", .obj [("outdated", .arr []), ("vulnerable", .arr []),
                                    ("well_maintained", .arr [])]),
        ("integration_opportunities", .arr []),
        ("error", error_msg)]

/-- `DependencyAnalyzerAgent.analyze` after the extractor returned
(lines 113–149): a truthy decoded dict without a truthy
`parse_failed` is returned as-is; otherwise the agent's schema
default with the error message is returned.  A truthy decoded
non-dict would raise `AttributeError` in Python (modelled as
`.error`); logging-only expressions are omitted (on the shapes
quantified over in the theorems below they do not raise and do not
affect the returned value). -/
def dependency_analyzer_decode (analysis : Option Json) : Except String Json :=
  match analysis with
  | none => .ok (dependency_analyzer_default (.str "Failed to extract JSON"))
  | some a =>
    if pyTruthy a then
      match a with
      | .obj kvs =>
        if pyTruthy (pyGetD kvs "parse_failed" .null) then
          .ok (dependency_analyzer_default (pyGetD kvs "error" (.str "Unknown parsing error")))
        else .ok a
      | _ => .error "AttributeError: get on non-dict"
    else .ok (dependency_analyzer_default (.str "Failed to extract JSON"))

/-! ### `agents/problem_creator_agent.py` -/

/-- The record returned by `ProblemCreatorAgent.create_problem` on
decode failure (lines 249–254). -/
def problem_creator_default (error_msg : Json) (response : String) : Json :=
  .obj [("title", .str "Error Creating Problem"),
        ("description", .str "Failed to generate valid problem"),
        ("error", error_msg),
        ("raw_response", .str (pySlice response 1000))]

/-- `ProblemCreatorAgent.create_problem` after the extractor returned
(lines 217–254), same conventions as `dependency_analyzer_decode`. -/
def create_problem_decode (problem : Option Json) (response : String) : Except String Json :=
  match problem with
  | none => .ok (problem_creator_default (.str "Failed to extract JSON") response)
  | some p =>
    if pyTruthy p then
      match p with
      | .obj kvs =>
        if pyTruthy (pyGetD kvs "parse_failed" .null) then
          .ok (problem_creator_default (pyGetD kvs "error" (.str "Unknown parsing error")) response)
        else .ok p
      | _ => .error "AttributeError: get on non-dict"
    else .ok (problem_creator_default (.str "Failed to extract JSON") response)

/-- `ProblemCreatorAgent.create_problem` mode switch (lines 124–126):
refinement mode is selected exactly when
`repository_report.get('improvement_context')` is truthy. -/
def is_refinement_request (repository_report : PyDict) : Bool :=
  pyTruthy (pyGetD repository_report "improvement_context" .null)

/-- Top-level keys of a decoded record (empty for a non-dict). -/
def topKeys : Json → List String
  | .obj kvs => kvs.map Prod.fst
  | _ => []

/-! ### `agents/qa_validator_agent.py` -/

/-- The `quality_threshold` constructor default of
`QAValidatorAgent.__init__`, also the value the `qa_validator`
singleton is constructed with (lines 17 and 238). -/
def qa_validator_default_quality_threshold : Int := 85

/-- The failing validation record returned by
`QAValidatorAgent.validate_problem` when decoding fails
(lines 226–234). -/
def qa_validation_failure (error_msg : Json) : Json :=
  .obj [("is_approved", .bool false),
        ("overall_score", .num 0),
        ("scores", .obj [("feasibility", .num 0), ("quality", .num 0),
                         ("technical", .num 0), ("educational", .num 0)]),
        ("issues", .arr [.str "Failed to parse validation response"]),
        ("suggestions", .arr []),
        ("feedback", .obj [("strengths", .arr []), ("weaknesses", .arr [.str "Validation error"]),
                           ("improvements", .arr [])]),
        ("error", error_msg)]

/-- `QAValidatorAgent.validate_problem` after the extractor returned
(lines 187–234): on a truthy decoded dict without a truthy
`parse_failed`, recompute `is_approved` as
`overall_score >= quality_threshold` (missing score defaults to 0),
store it into the record, and return the pair; otherwise return
`(False, qa_validation_failure)`.  A truthy non-dict raises
`AttributeError`, and a non-integer `overall_score` raises
`TypeError` at the comparison; both are modelled as `.error`.
Logging-only expressions are omitted as in
`dependency_analyzer_decode`. -/
def validate_problem_decode (quality_threshold : Int) (decoded : Option Json) :
    Except String (Bool × Json) :=
  match decoded with
  | none => .ok (false, qa_validation_failure (.str "Failed to extract JSON"))
  | some v =>
    if pyTruthy v then
      match v with
      | .obj kvs =>
        if pyTruthy (pyGetD kvs "parse_failed" .null) then
          .ok (false, qa_validation_failure (pyGetD kvs "error" (.str "Unknown parsing error")))
        else
          match pyIntLike (pyGetD kvs "overall_score" (.num 0)) with
          | some score =>
            let is_approved : Bool := decide (score ≥ quality_threshold)
            .ok (is_approved, .obj (pySet kvs "is_approved" (.bool is_approved)))
          | none => .error "TypeError: comparison with non-number"
      | _ => .error "AttributeError: get on non-dict"
    else .ok (false, qa_validation_failure (.str "Failed to extract JSON"))

/-! ### `orchestrator.py` — synthesis -/

/-- The loop body of `AssessmentOrchestrator._rank_suggestions`
(lines 317–325): `seen` is the `seen_titles` set (order of the model
list is irrelevant, membership is what the code tests), `acc` the
`unique_suggestions` accumulator in reverse.  Suggestions are
modelled as dicts, the shape the analyzers' schemas produce; a
suggestion whose `title` value is not a string would raise
`AttributeError` at `.lower()`. -/
def rank_suggestions_aux (seen : List String) (acc : List PyDict) :
    List PyDict → Except String (List PyDict)
  | [] => .ok acc.reverse
  | s :: rest =>
    match pyGetD s "title" (.str "") with
    | .str t =>
      let title := pyToLower t
      if title ≠ "" ∧ title ∉ seen then
        rank_suggestions_aux (title :: seen) (s :: acc) rest
      else rank_suggestions_aux seen acc rest
    | _ => .error "AttributeError: lower on non-string"

/-- `AssessmentOrchestrator._rank_suggestions` (lines 314–328):
keep a suggestion exactly when its lower-cased title is non-empty and
not seen before. -/
def rank_suggestions (suggestions : List PyDict) : Except String (List PyDict) :=
  rank_suggestions_aux [] [] suggestions

/-- The `ranked_suggestions` field built by
`AssessmentOrchestrator._synthesize_single_report`
(lines 287–292 and 310): the PR-analysis suggestions followed by the
issue-analysis suggestions, ranked, then capped at the first 10. -/
def synthesize_ranked_suggestions (pr_suggested issue_suggested : List PyDict) :
    Except String (List PyDict) :=
  (rank_suggestions (pr_suggested ++ issue_suggested)).map (·.take 10)

/-- The lower-cased title key a suggestion is deduplicated under
(used by the spec-side definition below; empty for a missing title). -/
def suggestionTitleKey (s : PyDict) : String :=
  match pyGetD s "title" (.str "") with
  | .str t => pyToLower t
  | _ => ""

/-- Modelled from the spec's words, for comparison with
`rank_suggestions`: "union dedup of suggested problems by lower-cased
title, first-seen-wins", preserving the order of the remaining
entries.  This is the behaviour the claims attribute to synthesis. -/
def specDedupByLowerTitle : List PyDict → List PyDict :=
  go []
where
  /-- Keep the first occurrence of each lower-cased title. -/
  go (seen : List String) : List PyDict → List PyDict
    | [] => []
    | s :: rest =>
      if suggestionTitleKey s ∈ seen then go seen rest
      else s :: go (suggestionTitleKey s :: seen) rest

/-! ### `orchestrator.py` — validate and improve -/

/-- Elements of a decoded JSON list (the shapes iterated by
`_create_improvement_instructions` are lists; iterating a non-list
would raise in Python and is modelled as no elements). -/
def pyElems : Json → List Json
  | .arr l => l
  | _ => []

/-- `f"{i}. {item}\n"` lines of a Python `enumerate(items, 1)` loop. -/
def enumLines (items : List Json) : String :=
  String.join (items.enum.map fun (i, it) => toString (i + 1) ++ ". " ++ pyStr it ++ "\n")

/-- `AssessmentOrchestrator._create_improvement_instructions`
(lines 464–502), translated line by line. -/
def create_improvement_instructions (validation : PyDict) : String :=
  let issues := pyElems (pyGetD validation "issues" (.arr []))
  let suggestions := pyElems (pyGetD validation "suggestions" (.arr []))
  let feedback :=
    match pyGetD validation "feedback" (.obj []) with
    | .obj kvs => kvs
    | _ => []
  let ins := "REFINEMENT INSTRUCTIONS:\n\n"
  let ins := ins ++ "Based on QA validation, refine the problem by addressing:\n\n"
  let ins :=
    if !issues.isEmpty then ins ++ "CRITICAL ISSUES TO FIX:\n" ++ enumLines issues ++ "\n"
    else ins
  let ins :=
    if !suggestions.isEmpty then ins ++ "IMPROVEMENTS TO IMPLEMENT:\n" ++ enumLines suggestions ++ "\n"
    else ins
  let ins :=
    if pyTruthy ((alLookup feedback "weaknesses").getD .null) then
      ins ++ "WEAKNESSES TO ADDRESS:\n" ++
        enumLines (pyElems ((alLookup feedback "weaknesses").getD .null)) ++ "\n"
    else ins
  let ins := ins ++ "MAINTAIN STRENGTHS:\n" ++
    enumLines ((pyElems (pyGetD feedback "strengths" (.arr []))).take 3)
  ins ++ "\nIMPORTANT: Keep the same difficulty level and problem type, but refine all aspects based on the feedback above."

/-- One invocation of `problem_creator.create_problem`, recorded with
the arguments the orchestrator passes. -/
structure CreatorCall where
  repository_report : PyDict
  difficulty : Json
  problem_type : String
  focus_area : String

/-- What `AssessmentOrchestrator._validate_and_improve` produces:
its returned pair plus the trace of collaborator invocations it
performed. -/
structure ValidateImproveRun where
  improved_problem : Json
  validation : PyDict
  creator_calls : List CreatorCall
  validator_calls : Nat

/-- `AssessmentOrchestrator._validate_and_improve` (lines 385–462)
with the two collaborators passed explicitly: `validator` is
`qa_validator.validate_problem` restricted to its observable return
value, `creator` is `problem_creator.create_problem`.  The body
validates once, builds the `improvement_context`, invokes the creator
once with `problem_type="improvement"`, and returns the improved
problem paired with the ORIGINAL validation result.  Print and timer
statements are omitted. -/
def validate_and_improve
    (validator : PyDict → PyDict → Bool × PyDict)
    (creator : CreatorCall → Json)
    (problem : PyDict) (analysis_report : PyDict) : ValidateImproveRun :=
  let validation_result := (validator problem analysis_report).2
  let score := pyGetD validation_result "overall_score" (.num 0)
  let improvement_context : PyDict :=
    [("original_problem", .obj problem),
     ("validation_feedback", .obj validation_result),
     ("improvement_instructions", .str (create_improvement_instructions validation_result)),
     ("target_score", .num 100),
     ("current_score", score)]
  let call : CreatorCall :=
    { repository_report := pySet analysis_report "improvement_context" (.obj improvement_context)
      difficulty := pyGetD problem "difficulty" (.str "medium")
      problem_type := "improvement"
      focus_area := "Refined version incorporating QA feedback - " ++
        pyStr (pyGetD problem "estimated_time" (.num 240)) ++ " minutes" }
  let improved_problem := creator call
  { improved_problem := improved_problem
    validation := validation_result
    creator_calls := [call]
    validator_calls := 1 }

/-- `AssessmentOrchestrator._compile_final_result` (lines 504–533).
`performance`, `conversation_id` and `generated_at` stand for the
monitor snapshot, the instance's conversation id and
`datetime.now().isoformat()`. -/
def compile_final_result (repo_data analysis_report : PyDict) (problem : Json)
    (validation : PyDict) (performance : Json)
    (conversation_id generated_at : String) : PyDict :=
  [("success", .bool true),
   ("assessment", .obj
     [("problem", problem),
      ("validation", .obj validation),
      ("metadata", .obj
        [("repository", pyGetD repo_data "repository" (.obj [])),
         ("analysis_summary", .obj
           [("suggestions_evaluated",
             .num (pyLen (pyGetD analysis_report "ranked_suggestions" (.arr []))))]),
         ("performance", performance),
         ("conversation_id", .str conversation_id),
         ("generated_at", .str generated_at)])]),
   ("debug", .obj
     [("repo_data", .obj repo_data),
      ("analysis_report", .obj analysis_report)])]

/-! ### `utils/a2a_protocol.py`

The notification channel.  `message_id` is modelled as a counter
drawn from the protocol state (the source draws a fresh UUID — only
freshness is observable); the wall-clock `timestamp` field is
omitted.  `Optional[str] = None` parameters are `Option String`, and
Python truthiness makes both `none` and `some ""` falsy. -/

/-- An `A2AMessage` (the dataclass), without the wall-clock
timestamp. -/
structure A2AMessage where
  protocol_version : String
  message_id : Nat
  sender_id : String
  sender_type : String
  recipient_id : String
  message_type : String
  payload : PyDict
  conversation_id : String
deriving Repr

/-- The mutable state of an `A2AProtocol` instance, plus the
`message_id` counter. -/
structure A2AState where
  message_history : List A2AMessage
  conversation_index : List (String × List A2AMessage)
  next_id : Nat

/-- `A2AProtocol.__init__`: empty history and index. -/
def initialA2AState : A2AState :=
  { message_history := [], conversation_index := [], next_id := 0 }

/-- First bucket bound to `c` in the conversation index. -/
def idxLookup (idx : List (String × List A2AMessage)) (c : String) :
    Option (List A2AMessage) :=
  match idx with
  | [] => none
  | (k, v) :: rest => if k = c then some v else idxLookup rest c

/-- Replace the first bucket bound to `c` (CPython dict item
assignment for an existing key). -/
def idxSet (idx : List (String × List A2AMessage)) (c : String)
    (v : List A2AMessage) : List (String × List A2AMessage) :=
  match idx with
  | [] => []
  | (k, v') :: rest => if k = c then (k, v) :: rest else (k, v') :: idxSet rest c v

/-- `del index[c]` on the conversation index. -/
def idxErase (idx : List (String × List A2AMessage)) (c : String) :
    List (String × List A2AMessage) :=
  match idx with
  | [] => []
  | (k, v) :: rest => if k = c then rest else (k, v) :: idxErase rest c

/-- `A2AProtocol._log_message` (lines 183–191): append to the
history; create the conversation's bucket if absent (new key at the
end, as CPython dicts append) and append to it. -/
def log_message (st : A2AState) (m : A2AMessage) : A2AState :=
  { st with
    message_history := st.message_history ++ [m]
    conversation_index :=
      match idxLookup st.conversation_index m.conversation_id with
      | some msgs => idxSet st.conversation_index m.conversation_id (msgs ++ [m])
      | none => st.conversation_index ++ [(m.conversation_id, [m])] }

/-- `A2AProtocol.send_message` (lines 80–115): build the message,
log it, return it. -/
def send_message (st : A2AState) (sender_id sender_type recipient_id : String)
    (data : PyDict) (conversation_id : String) (message_type : String) :
    A2AState × A2AMessage :=
  let m : A2AMessage :=
    { protocol_version := "1.0"
      message_id := st.next_id
      sender_id := sender_id
      sender_type := sender_type
      recipient_id := recipient_id
      message_type := message_type
      payload := [("data", .obj data)]
      conversation_id := conversation_id }
  (log_message { st with next_id := st.next_id + 1 } m, m)

/-- `A2AProtocol.broadcast_message` (lines 117–143): delegate to
`send_message` with `recipient_id="all_agents"` and
`message_type="broadcast"`. -/
def broadcast_message (st : A2AState) (sender_id sender_type : String)
    (data : PyDict) (conversation_id : String) : A2AState × A2AMessage :=
  send_message st sender_id sender_type "all_agents" data conversation_id "broadcast"

/-- `A2AProtocol.send_response` (lines 145–181): add the original
message reference to the payload and delegate to `send_message` with
`message_type="response"`. -/
def send_response (st : A2AState) (sender_id sender_type recipient_id : String)
    (data : PyDict) (conversation_id original_message_id : String) :
    A2AState × A2AMessage :=
  let response_data := pySet data "in_response_to" (.str original_message_id)
  send_message st sender_id sender_type recipient_id response_data conversation_id "response"

/-- Truthiness of an `Optional[str]` argument: `None` and `""` are
falsy. -/
def pyTruthyOptStr : Option String → Bool
  | none => false
  | some s => s ≠ ""

/-- `A2AProtocol.get_message_history` (lines 193–223): start from
the conversation's bucket when the `conversation_id` argument is
truthy (else from the whole history) and apply the optional sender
and recipient filters. -/
def get_message_history (st : A2AState)
    (conversation_id sender_id recipient_id : Option String) : List A2AMessage :=
  let messages :=
    if pyTruthyOptStr conversation_id then
      (idxLookup st.conversation_index (conversation_id.getD "")).getD []
    else st.message_history
  let messages :=
    if pyTruthyOptStr sender_id then
      messages.filter (fun m => m.sender_id = sender_id.getD "")
    else messages
  if pyTruthyOptStr recipient_id then
    messages.filter (fun m => m.recipient_id = recipient_id.getD "")
  else messages

/-- `A2AProtocol.clear_history` (lines 272–292): with a truthy
`conversation_id`, drop that conversation from the history and the
index (a no-op when the conversation is not indexed); with a falsy
one, clear everything. -/
def clear_history (st : A2AState) (conversation_id : Option String) : A2AState :=
  if pyTruthyOptStr conversation_id then
    let c := conversation_id.getD ""
    if (idxLookup st.conversation_index c).isSome then
      { st with
        message_history := st.message_history.filter (fun m => m.conversation_id ≠ c)
        conversation_index := idxErase st.conversation_index c }
    else st
  else
    { st with message_history := [], conversation_index := [] }

/-- One call on the notification channel. -/
inductive A2AOp where
  | send (sender_id sender_type recipient_id : String) (data : PyDict)
      (conversation_id message_type : String)
  | broadcast (sender_id sender_type : String) (data : PyDict) (conversation_id : String)
  | response (sender_id sender_type recipient_id : String) (data : PyDict)
      (conversation_id original_message_id : String)
  | clear (conversation_id : Option String)

/-- Apply one call to the protocol state. -/
def applyOp (st : A2AState) : A2AOp → A2AState
  | .send a b c d e f => (send_message st a b c d e f).1
  | .broadcast a b d e => (broadcast_message st a b d e).1
  | .response a b c d e f => (send_response st a b c d e f).1
  | .clear c => clear_history st c

/-- Run a sequence of calls from a fresh protocol instance. -/
def runOps (ops : List A2AOp) : A2AState :=
  ops.foldl applyOp initialA2AState

/-- The history/index consistency invariant: the index keys are
unique, and every conversation's bucket holds exactly that
conversation's messages in history (append) order. -/
def IndexConsistent (st : A2AState) : Prop :=
  (st.conversation_index.map Prod.fst).Nodup ∧
    ∀ c, (idxLookup st.conversation_index c).getD [] =
      st.message_history.filter (fun m => m.conversation_id = c)

/-! ### Shared helper definitions and lemmas -/

/-- Field of a decoded record (`none` for a non-dict or missing key). -/
def jGet : Json → String → Option Json
  | .obj kvs, k => alLookup kvs k
  | _, _ => none

theorem alLookup_pySet_self (kvs : PyDict) (k : String) (v : Json) :
    alLookup (pySet kvs k v) k = some v := by
  induction kvs with
  | nil => simp [pySet, alLookup]
  | cons hd tl ih =>
    by_cases h : hd.1 = k
    · simp [pySet, alLookup, h]
    · simpa [pySet, alLookup, h] using ih

theorem pySlice_length_le (s : String) (n : Nat) : (pySlice s n).length ≤ n := by
  cases s with
  | mk d =>
    show (d.take n).length ≤ n
    simp [List.length_take]

theorem pySlice_append_drop (s : String) (n : Nat) :
    pySlice s n ++ String.mk (s.data.drop n) = s := by
  cases s with
  | mk d =>
    show String.mk (d.take n ++ d.drop n) = String.mk d
    exact congrArg String.mk (List.take_append_drop n d)

/-! ### Theorems for the claims -/

/-- C10: whenever the QA-Validator's model output cannot be decoded
into a record (the extractor returned `None`), `validate_problem`
does not raise: it returns `(False, result)` where `result` has
`is_approved=False`, `overall_score=0`, all four dimension scores
equal to 0, a non-empty `issues` list, and an `error` field — a
total, failing-by-default fallback for the single-shot validation
call, at every threshold. -/
theorem qa_validate_decode_failure_total (quality_threshold : Int) :
    validate_problem_decode quality_threshold none =
      .ok (false, qa_validation_failure (.str "Failed to extract JSON")) ∧
    jGet (qa_validation_failure (.str "Failed to extract JSON")) "is_approved" =
      some (.bool false) ∧
    jGet (qa_validation_failure (.str "Failed to extract JSON")) "overall_score" =
      some (.num 0) ∧
    jGet (qa_validation_failure (.str "Failed to extract JSON")) "scores" =
      some (.obj [("feasibility", .num 0), ("quality", .num 0),
                  ("technical", .num 0), ("educational", .num 0)]) ∧
    jGet (qa_validation_failure (.str "Failed to extract JSON")) "issues" =
      some (.arr [.str "Failed to parse validation response"]) ∧
    (jGet (qa_validation_failure (.str "Failed to extract JSON")) "error").isSome = true :=
  ⟨rfl, rfl, rfl, rfl, rfl, rfl⟩

/-- C2: for every successfully decoded ValidationResult (a truthy
dict with no `parse_failed` marker and an integer `overall_score`,
which defaults to 0 when absent), the caller recomputes
`is_approved` as `overall_score >= threshold`, overwriting whatever
boolean the model asserted, and the constructor default for the
threshold is 85. -/
theorem qa_validator_recomputes_is_approved
    (quality_threshold : Int) (kvs : PyDict) (n : Int)
    (htruthy : kvs ≠ [])
    (hpf : pyTruthy (pyGetD kvs "parse_failed" .null) = false)
    (hscore : pyGetD kvs "overall_score" (.num 0) = .num n) :
    validate_problem_decode quality_threshold (some (.obj kvs)) =
      .ok (decide (n ≥ quality_threshold),
        .obj (pySet kvs "is_approved" (.bool (decide (n ≥ quality_threshold))))) ∧
    jGet (.obj (pySet kvs "is_approved" (.bool (decide (n ≥ quality_threshold)))))
        "is_approved" = some (.bool (decide (n ≥ quality_threshold))) ∧
    qa_validator_default_quality_threshold = 85 := by
  refine ⟨?_, ?_, rfl⟩
  · cases kvs with
    | nil => exact absurd rfl htruthy
    | cons hd tl =>
      have h1 : pyTruthy (Json.obj (hd :: tl)) = true := by simp [pyTruthy]
      simp only [validate_problem_decode, h1, if_true, hpf, Bool.false_eq_true,
        if_false, hscore, pyIntLike]
  · exact alLookup_pySet_self kvs "is_approved" _

/-- Witness for C2 at the claim's concrete instance: a decoded
result with `overall_score=84` and a model-asserted
`is_approved=true` is returned with `is_approved=false` under
threshold 85. -/
theorem qa_validator_recomputes_is_approved_witness :
    ([(("is_approved" : String), Json.bool true), ("overall_score", Json.num 84)] ≠
      ([] : PyDict)) ∧
    pyTruthy (pyGetD [(("is_approved" : String), Json.bool true),
      ("overall_score", Json.num 84)] "parse_failed" .null) = false ∧
    pyGetD [(("is_approved" : String), Json.bool true), ("overall_score", Json.num 84)]
      "overall_score" (.num 0) = .num 84 ∧
    validate_problem_decode 85
        (some (.obj [("is_approved", .bool true), ("overall_score", .num 84)])) =
      .ok (false, .obj [("is_approved", .bool false), ("overall_score", .num 84)]) := by
  refine ⟨by simp, rfl, rfl, ?_⟩
  exact (qa_validator_recomputes_is_approved 85
    [("is_approved", .bool true), ("overall_score", .num 84)] 84
    (by simp) rfl rfl).1

/-- C8 counterexample: a broadcast on the notification channel logs
`recipient_id = "all_agents"`, not `"all"` as the claim states. -/
theorem broadcast_recipient_is_not_all :
    (broadcast_message initialA2AState "orchestrator" "coordinator"
      [("iteration", Json.num 1)] "conv_001").2.recipient_id = "all_agents" ∧
    ¬ (broadcast_message initialA2AState "orchestrator" "coordinator"
      [("iteration", Json.num 1)] "conv_001").2.recipient_id = "all" ∧
    (broadcast_message initialA2AState "orchestrator" "coordinator"
      [("iteration", Json.num 1)] "conv_001").2.message_type = "broadcast" :=
  ⟨rfl, by decide, rfl⟩

/-- C8 amended: `broadcast_message(sender, type, data, conv)` is
exactly `send_message` with `recipient_id = "all_agents"` and
`message_type = "broadcast"`, and the logged message (appended to
the history) is the returned one. -/
theorem broadcast_message_is_send_to_all_agents
    (st : A2AState) (sender_id sender_type : String) (data : PyDict)
    (conversation_id : String) :
    broadcast_message st sender_id sender_type data conversation_id =
      send_message st sender_id sender_type "all_agents" data conversation_id "broadcast" ∧
    (broadcast_message st sender_id sender_type data conversation_id).2.message_type =
      "broadcast" ∧
    (broadcast_message st sender_id sender_type data conversation_id).2.recipient_id =
      "all_agents" ∧
    (broadcast_message st sender_id sender_type data conversation_id).1.message_history =
      st.message_history ++
        [(broadcast_message st sender_id sender_type data conversation_id).2] :=
  ⟨rfl, rfl, rfl, rfl⟩

/-- A schema-shaped ProblemSpec record, as a successful decode of the
Problem-Creator's documented output format returns it verbatim. -/
def problemSchemaExample : PyDict :=
  [("title", .str "Add request caching"),
   ("description", .str "Implement a cache layer"),
   ("business_context", .str "Reduce latency"),
   ("requirements", .arr [.str "r1"]),
   ("acceptance_criteria", .arr [.str "a1"]),
   ("starter_code", .arr []),
   ("hints", .arr []),
   ("estimated_time", .num 180),
   ("difficulty", .str "medium"),
   ("tech_stack", .arr [.str "python"]),
   ("evaluation_rubric", .arr [])]

/-- C4 counterexample: the Problem-Creator's decode-failure record
does not have the same top-level keys as a record returned on decode
success — `requirements` (like most ProblemSpec fields) is absent
from the failure record. -/
theorem problem_creator_failure_record_drops_schema_keys :
    create_problem_decode (some (.obj problemSchemaExample)) "resp" =
      .ok (.obj problemSchemaExample) ∧
    create_problem_decode none "resp" =
      .ok (problem_creator_default (.str "Failed to extract JSON") "resp") ∧
    "requirements" ∈ topKeys (.obj problemSchemaExample) ∧
    "requirements" ∉
      topKeys (problem_creator_default (.str "Failed to extract JSON") "resp") :=
  ⟨rfl, rfl, by decide, by decide⟩

/-- C4 amended: the Dependency-Analyzer's decode-failure record
carries exactly its schema's top-level keys plus an added `error`
marker, but the Problem-Creator's decode-failure record carries only
`title`, `description`, `error`, `raw_response` — its remaining
ProblemSpec fields cannot be indexed after a failure. -/
theorem decode_failure_record_keys (response : String) :
    dependency_analyzer_decode none =
      .ok (dependency_analyzer_default (.str "Failed to extract JSON")) ∧
    topKeys (dependency_analyzer_default (.str "Failed to extract JSON")) =
      ["tech_stack", "dependency_health", "integration_opportunities", "error"] ∧
    create_problem_decode none response =
      .ok (problem_creator_default (.str "Failed to extract JSON") response) ∧
    topKeys (problem_creator_default (.str "Failed to extract JSON") response) =
      ["title", "description", "error", "raw_response"] :=
  ⟨rfl, rfl, rfl, rfl⟩

/-- C3 counterexample: on the empty string the response extractor
returns `None` — it does not return a FailureRecord (the code's own
docstring documents the `None` return; `create_default_response`,
which builds the FailureRecord, has no caller). -/
theorem extractor_returns_none_on_empty_string :
    extract_json_from_response "" = none ∧
    (∀ v : Json, some v ≠ (none : Option Json)) := ⟨rfl, fun _ h => Option.noConfusion h⟩

/-- C3 amended: the extractor never raises (it is a total function)
and returns either a parsed record or `None`; the FailureRecord with
`parse_failed=true`, the error message, and at most 1000 characters
of the raw response is provided by the separate — currently
uncalled — `create_default_response`, while each agent substitutes
its own schema default on a `None` result. -/
theorem extractor_and_default_response_shape (error_msg raw : String) :
    jGet (create_default_response error_msg raw) "parse_failed" = some (.bool true) ∧
    jGet (create_default_response error_msg raw) "error" = some (.str error_msg) ∧
    (∃ r : String, jGet (create_default_response error_msg raw) "raw_response" =
        some (.str r) ∧ r.length ≤ 1000 ∧ ∃ rest : String, r ++ rest = raw) ∧
    extract_json_from_response "" = none ∧
    extract_json_from_response "\x7b\"a\": 1\x7d" = some (.obj [("a", .num 1)]) := by
  refine ⟨rfl, rfl, ?_, rfl, rfl⟩
  by_cases h : raw = ""
  · refine ⟨"", ?_, by simp, "", by simp [h]⟩
    simp [create_default_response, jGet, alLookup, h]
  · refine ⟨pySlice raw 1000, ?_, pySlice_length_le raw 1000,
      String.mk (raw.data.drop 1000), pySlice_append_drop raw 1000⟩
    simp [create_default_response, jGet, alLookup, h]

/-- C7: for every repository dataset, the prompt built by the
Dependency-Analyzer embeds the serialized dependency listing as a
left-anchored excerpt of at most 2000 characters, and the README as
a left-anchored excerpt of at most 500 characters; prompt building
is a total function (no exception). -/
theorem dependency_prompt_truncation_bound (rd : RepoData) :
    (deps_summary (rd.dependencies.getD (.arr []))).length ≤ 2000 ∧
    (∃ rest : String, deps_summary (rd.dependencies.getD (.arr [])) ++ rest =
      pyJsonDumps2 (rd.dependencies.getD (.arr []))) ∧
    (pySlice (rd.readme.getD "No README") 500).length ≤ 500 ∧
    (∃ rest : String, pySlice (rd.readme.getD "No README") 500 ++ rest =
      rd.readme.getD "No README") ∧
    dependency_analyzer_prompt rd =
      "Analyze this tech stack and dependencies:\n\nRepository: " ++
      pyStr (pyGetD (rd.repository.getD []) "name" (.str "Unknown")) ++
      "\nPrimary Language: " ++
      pyStr (pyGetD (rd.repository.getD []) "language" (.str "Unknown")) ++
      "\n\nDependencies:\n" ++
      deps_summary (rd.dependencies.getD (.arr [])) ++
      "\n\nREADME (for context):\n" ++
      pySlice (rd.readme.getD "No README") 500 ++
      "\n\nAnalyze the technology stack, dependency health, and identify integration opportunities for coding challenges.\nReturn ONLY valid JSON matching the specified format." := by
  refine ⟨pySlice_length_le _ 2000, ?_, pySlice_length_le _ 500, ?_, rfl⟩
  · exact ⟨String.mk ((pyJsonDumps2 (rd.dependencies.getD (.arr []))).data.drop 2000),
      pySlice_append_drop _ 2000⟩
  · exact ⟨String.mk ((rd.readme.getD "No README").data.drop 500),
      pySlice_append_drop _ 500⟩

/-- A one-field suggestion record with the given title. -/
def sugg (t : String) : PyDict := [("title", Json.str t)]

/-- A PR-analysis suggestion list: one untitled entry followed by six
titled ones. -/
def c5prSuggestions : List PyDict :=
  [[("description", .str "untitled")], sugg "t1", sugg "t2", sugg "t3",
   sugg "t4", sugg "t5", sugg "t6"]

/-- An issue-analysis suggestion list with five further titled
entries. -/
def c5issueSuggestions : List PyDict :=
  [sugg "t7", sugg "t8", sugg "t9", sugg "t10", sugg "t11"]

/-- C5 counterexample: synthesis is not the first-seen-wins dedup of
the union — an entry with a missing (empty) title is dropped
entirely, and the result is capped at the first 10 entries, so a
12-entry duplicate-free union yields 10 entries, not 12. -/
theorem synthesis_is_not_plain_dedup :
    synthesize_ranked_suggestions c5prSuggestions c5issueSuggestions =
      .ok [sugg "t1", sugg "t2", sugg "t3", sugg "t4", sugg "t5", sugg "t6",
           sugg "t7", sugg "t8", sugg "t9", sugg "t10"] ∧
    specDedupByLowerTitle (c5prSuggestions ++ c5issueSuggestions) =
      c5prSuggestions ++ c5issueSuggestions ∧
    (c5prSuggestions ++ c5issueSuggestions).length = 12 ∧
    [sugg "t1", sugg "t2", sugg "t3", sugg "t4", sugg "t5", sugg "t6",
     sugg "t7", sugg "t8", sugg "t9", sugg "t10"].length = 10 :=
  ⟨rfl, rfl, rfl, rfl⟩

theorem rank_suggestions_aux_eq_specGo (l : List PyDict) :
    ∀ (seen : List String) (acc : List PyDict),
    (∀ s ∈ l, ∃ t : String, pyGetD s "title" (.str "") = .str t) →
    rank_suggestions_aux seen acc l =
      .ok (acc.reverse ++
        specDedupByLowerTitle.go seen (l.filter (fun s => suggestionTitleKey s ≠ ""))) := by
  induction l with
  | nil => intro seen acc _; simp [rank_suggestions_aux, specDedupByLowerTitle.go]
  | cons s rest ih =>
    intro seen acc h
    obtain ⟨t, ht⟩ := h s (List.mem_cons_self s rest)
    have hrest : ∀ s' ∈ rest, ∃ t : String, pyGetD s' "title" (.str "") = .str t :=
      fun s' hs' => h s' (List.mem_cons_of_mem s hs')
    have hkey : suggestionTitleKey s = pyToLower t := by simp [suggestionTitleKey, ht]
    by_cases hempty : pyToLower t = ""
    · simp [rank_suggestions_aux, ht, hempty, hkey, ih _ _ hrest]
    · by_cases hseen : pyToLower t ∈ seen
      · simp [rank_suggestions_aux, ht, hempty, hseen, hkey,
          specDedupByLowerTitle.go, ih _ _ hrest]
      · simp [rank_suggestions_aux, ht, hempty, hseen, hkey,
          specDedupByLowerTitle.go, ih _ _ hrest]

/-- C5 amended: synthesis first drops every suggestion whose
lower-cased title is empty or missing, deduplicates the remaining
union by lower-cased title with first-seen-wins semantics preserving
order, and keeps only the first 10 survivors; on the claim's concrete
instance (`[A, b, A]` and `[C]`) it produces exactly 3 entries with
the first occurrence of `A` retained. -/
theorem synthesis_dedup_amended (pr issue : List PyDict)
    (h : ∀ s ∈ pr ++ issue, ∃ t : String, pyGetD s "title" (.str "") = .str t) :
    synthesize_ranked_suggestions pr issue =
      .ok ((specDedupByLowerTitle ((pr ++ issue).filter
        (fun s => suggestionTitleKey s ≠ ""))).take 10) ∧
    synthesize_ranked_suggestions [sugg "A", sugg "b", sugg "A"] [sugg "C"] =
      .ok [sugg "A", sugg "b", sugg "C"] := by
  refine ⟨?_, rfl⟩
  simp [synthesize_ranked_suggestions, rank_suggestions, specDedupByLowerTitle,
    rank_suggestions_aux_eq_specGo (pr ++ issue) [] [] h, Except.map]

/-- Witness for C5 amended at the claim's concrete instance. -/
theorem synthesis_dedup_amended_witness :
    (∀ s ∈ ([sugg "A", sugg "b", sugg "A"] ++ [sugg "C"]),
      ∃ t : String, pyGetD s "title" (.str "") = .str t) ∧
    synthesize_ranked_suggestions [sugg "A", sugg "b", sugg "A"] [sugg "C"] =
      .ok ((specDedupByLowerTitle (([sugg "A", sugg "b", sugg "A"] ++ [sugg "C"]).filter
        (fun s => suggestionTitleKey s ≠ ""))).take 10) := by
  have h : ∀ s ∈ ([sugg "A", sugg "b", sugg "A"] ++ [sugg "C"]),
      ∃ t : String, pyGetD s "title" (.str "") = .str t := by
    intro s hs
    simp only [sugg, List.mem_append, List.mem_cons, List.mem_singleton,
      List.not_mem_nil, or_false] at hs
    rcases hs with (h1 | h1 | h1) | h1 <;> subst h1 <;> exact ⟨_, rfl⟩
  exact ⟨h, (synthesis_dedup_amended [sugg "A", sugg "b", sugg "A"] [sugg "C"] h).1⟩

/-- C1: for every run reaching the refinement stage, the
Problem-Creator is invoked in refinement mode exactly once (with
`problem_type="improvement"` and a truthy `improvement_context`),
regardless of the validator's approval verdict; the QA-Validator is
invoked exactly once (no re-validation); and the compiled
AssessmentResult pairs the refined problem
(`assessment.problem`) with the original pre-refinement validation
result (`assessment.validation`). -/
theorem refinement_once_pairs_original_validation
    (validator : PyDict → PyDict → Bool × PyDict) (creator : CreatorCall → Json)
    (problem analysis_report repo_data : PyDict) (performance : Json)
    (conversation_id generated_at : String) :
    (validate_and_improve validator creator problem analysis_report).creator_calls.length
      = 1 ∧
    (validate_and_improve validator creator problem analysis_report).creator_calls.map
      (fun c => c.problem_type) = ["improvement"] ∧
    (validate_and_improve validator creator problem analysis_report).creator_calls.map
      (fun c => is_refinement_request c.repository_report) = [true] ∧
    (validate_and_improve validator creator problem analysis_report).creator_calls.map
      creator =
      [(validate_and_improve validator creator problem analysis_report).improved_problem] ∧
    (validate_and_improve validator creator problem analysis_report).validator_calls = 1 ∧
    (validate_and_improve validator creator problem analysis_report).validation =
      (validator problem analysis_report).2 ∧
    (jGet (.obj (compile_final_result repo_data analysis_report
        (validate_and_improve validator creator problem analysis_report).improved_problem
        (validate_and_improve validator creator problem analysis_report).validation
        performance conversation_id generated_at)) "assessment").bind
      (fun a => jGet a "problem") =
      some (validate_and_improve validator creator problem analysis_report).improved_problem ∧
    (jGet (.obj (compile_final_result repo_data analysis_report
        (validate_and_improve validator creator problem analysis_report).improved_problem
        (validate_and_improve validator creator problem analysis_report).validation
        performance conversation_id generated_at)) "assessment").bind
      (fun a => jGet a "validation") =
      some (.obj (validator problem analysis_report).2) := by
  refine ⟨rfl, rfl, ?_, rfl, rfl, rfl, rfl, rfl⟩
  simp [validate_and_improve, is_refinement_request, pyGetD, alLookup_pySet_self, pyTruthy]

/-! ### Lemmas about the conversation index -/

theorem idxLookup_eq_none_iff (idx : List (String × List A2AMessage)) (c : String) :
    idxLookup idx c = none ↔ c ∉ idx.map Prod.fst := by
  induction idx with
  | nil => simp [idxLookup]
  | cons hd tl ih =>
    by_cases h : hd.1 = c
    · simp [idxLookup, h]
    · simp [idxLookup, h, ih, Ne.symm h]

theorem idxLookup_idxSet_self (idx : List (String × List A2AMessage)) (c : String)
    (v w : List A2AMessage) (h : idxLookup idx c = some w) :
    idxLookup (idxSet idx c v) c = some v := by
  induction idx with
  | nil => simp [idxLookup] at h
  | cons hd tl ih =>
    by_cases hc : hd.1 = c
    · simp [idxSet, idxLookup, hc]
    · simp only [idxLookup, hc, if_false] at h
      simp [idxSet, idxLookup, hc, ih h]

theorem idxLookup_idxSet_ne (idx : List (String × List A2AMessage)) (c c' : String)
    (v : List A2AMessage) (h : c' ≠ c) :
    idxLookup (idxSet idx c v) c' = idxLookup idx c' := by
  induction idx with
  | nil => simp [idxSet]
  | cons hd tl ih =>
    obtain ⟨k, w⟩ := hd
    by_cases hc : k = c
    · have hne2 : ¬ (c = c') := fun hh => h hh.symm
      simp [idxSet, idxLookup, hc, hne2]
    · simp [idxSet, idxLookup, hc, ih]

theorem idxSet_map_fst (idx : List (String × List A2AMessage)) (c : String)
    (v : List A2AMessage) :
    (idxSet idx c v).map Prod.fst = idx.map Prod.fst := by
  induction idx with
  | nil => simp [idxSet]
  | cons hd tl ih =>
    by_cases hc : hd.1 = c
    · simp [idxSet, hc]
    · simp [idxSet, hc, ih]

theorem idxLookup_append_single (idx : List (String × List A2AMessage))
    (k c : String) (v : List A2AMessage) :
    idxLookup (idx ++ [(k, v)]) c =
      match idxLookup idx c with
      | some w => some w
      | none => if k = c then some v else none := by
  induction idx with
  | nil => simp [idxLookup]
  | cons hd tl ih =>
    by_cases hc : hd.1 = c
    · simp [idxLookup, hc]
    · simpa [idxLookup, hc] using ih

theorem idxErase_sublist (idx : List (String × List A2AMessage)) (c : String) :
    (idxErase idx c).Sublist idx := by
  induction idx with
  | nil => simp [idxErase]
  | cons hd tl ih =>
    by_cases hc : hd.1 = c
    · simp only [idxErase, hc, if_true]
      exact (List.sublist_cons_self hd tl)
    · simp only [idxErase, hc, if_false]
      exact List.Sublist.cons₂ hd ih

theorem idxLookup_idxErase_self (idx : List (String × List A2AMessage)) (c : String)
    (h : (idx.map Prod.fst).Nodup) :
    idxLookup (idxErase idx c) c = none := by
  induction idx with
  | nil => simp [idxErase, idxLookup]
  | cons hd tl ih =>
    obtain ⟨k, w⟩ := hd
    have h' : (tl.map Prod.fst).Nodup ∧ k ∉ tl.map Prod.fst := by
      simp only [List.map_cons, List.nodup_cons] at h
      exact ⟨h.2, h.1⟩
    by_cases hc : k = c
    · simp only [idxErase, hc, if_true]
      rw [idxLookup_eq_none_iff]
      exact hc ▸ h'.2
    · simp only [idxErase, hc, if_false, idxLookup]
      exact ih h'.1

theorem idxLookup_idxErase_ne (idx : List (String × List A2AMessage)) (c c' : String)
    (h : c' ≠ c) :
    idxLookup (idxErase idx c) c' = idxLookup idx c' := by
  induction idx with
  | nil => simp [idxErase]
  | cons hd tl ih =>
    obtain ⟨k, w⟩ := hd
    by_cases hc : k = c
    · have hne2 : ¬ (c = c') := fun hh => h hh.symm
      simp [idxErase, idxLookup, hc, hne2]
    · simp [idxErase, idxLookup, hc, ih]

theorem indexConsistent_initial : IndexConsistent initialA2AState :=
  ⟨List.nodup_nil, fun _ => rfl⟩

theorem indexConsistent_log (st : A2AState) (m : A2AMessage)
    (h : IndexConsistent st) : IndexConsistent (log_message st m) := by
  obtain ⟨hnd, hbk⟩ := h
  constructor
  · show ((match idxLookup st.conversation_index m.conversation_id with
      | some msgs => idxSet st.conversation_index m.conversation_id (msgs ++ [m])
      | none => st.conversation_index ++ [(m.conversation_id, [m])]).map Prod.fst).Nodup
    cases hl : idxLookup st.conversation_index m.conversation_id with
    | some msgs => simpa [idxSet_map_fst] using hnd
    | none =>
      have hmem : m.conversation_id ∉ st.conversation_index.map Prod.fst :=
        (idxLookup_eq_none_iff _ _).1 hl
      simp [List.nodup_append, hnd, hmem]
  · intro c
    show (idxLookup (match idxLookup st.conversation_index m.conversation_id with
      | some msgs => idxSet st.conversation_index m.conversation_id (msgs ++ [m])
      | none => st.conversation_index ++ [(m.conversation_id, [m])]) c).getD [] =
      (st.message_history ++ [m]).filter (fun x => x.conversation_id = c)
    rw [List.filter_append]
    by_cases hc : m.conversation_id = c
    · subst hc
      cases hl : idxLookup st.conversation_index m.conversation_id with
      | some msgs =>
        rw [idxLookup_idxSet_self st.conversation_index m.conversation_id
          (msgs ++ [m]) msgs hl, Option.getD_some]
        have hmsgs : msgs =
            st.message_history.filter (fun x => x.conversation_id = m.conversation_id) := by
          have h2 := hbk m.conversation_id
          rw [hl] at h2
          simpa using h2
        simp [hmsgs]
      | none =>
        rw [idxLookup_append_single, hl]
        have hnil : st.message_history.filter
            (fun x => x.conversation_id = m.conversation_id) = [] := by
          have h2 := hbk m.conversation_id
          rw [hl] at h2
          simpa using h2.symm
        simp [hnil]
    · cases hl : idxLookup st.conversation_index m.conversation_id with
      | some msgs =>
        rw [idxLookup_idxSet_ne _ _ _ _ (fun hh => hc hh.symm)]
        simpa [hc] using hbk c
      | none =>
        rw [idxLookup_append_single]
        cases hl' : idxLookup st.conversation_index c with
        | some w =>
          have h2 := hbk c
          rw [hl'] at h2
          simpa [hc] using h2
        | none =>
          have h2 := hbk c
          rw [hl'] at h2
          simp only [hc, if_false]
          simpa [hc] using h2

theorem indexConsistent_clear (st : A2AState) (c? : Option String)
    (h : IndexConsistent st) : IndexConsistent (clear_history st c?) := by
  obtain ⟨hnd, hbk⟩ := h
  unfold clear_history
  by_cases ht : pyTruthyOptStr c? = true
  · rw [if_pos ht]
    set c := c?.getD "" with hc
    by_cases hs : (idxLookup st.conversation_index c).isSome = true
    · rw [if_pos hs]
      constructor
      · exact hnd.sublist ((idxErase_sublist _ _).map Prod.fst)
      · intro c'
        by_cases hcc : c' = c
        · subst hcc
          rw [idxLookup_idxErase_self _ _ hnd]
          have hnil : (st.message_history.filter (fun m => m.conversation_id ≠ c)).filter
              (fun m => m.conversation_id = c) = [] := by
            rw [List.filter_filter]
            apply List.filter_eq_nil_iff.2
            intro a _
            simp only [Bool.and_eq_true, decide_eq_true_eq]
            rintro ⟨h1, h2⟩
            exact h2 h1
          simp [hnil]
        · rw [idxLookup_idxErase_ne _ _ _ hcc]
          have heq : (st.message_history.filter (fun m => m.conversation_id ≠ c)).filter
              (fun m => m.conversation_id = c') =
              st.message_history.filter (fun m => m.conversation_id = c') := by
            rw [List.filter_filter]
            apply List.filter_congr
            intro a _
            by_cases ha : a.conversation_id = c'
            · simp [ha, hcc]
            · simp [ha]
          rw [heq]
          exact hbk c'
    · rw [if_neg hs]
      exact ⟨hnd, hbk⟩
  · rw [if_neg ht]
    exact ⟨List.nodup_nil, fun c => by simp [idxLookup]⟩

theorem indexConsistent_applyOp (st : A2AState) (op : A2AOp)
    (h : IndexConsistent st) : IndexConsistent (applyOp st op) := by
  cases op with
  | send a b c d e f => exact indexConsistent_log _ _ ⟨h.1, h.2⟩
  | broadcast a b d e => exact indexConsistent_log _ _ ⟨h.1, h.2⟩
  | response a b c d e f => exact indexConsistent_log _ _ ⟨h.1, h.2⟩
  | clear c => exact indexConsistent_clear _ _ h

theorem indexConsistent_foldl (ops : List A2AOp) :
    ∀ st : A2AState, IndexConsistent st → IndexConsistent (ops.foldl applyOp st) := by
  induction ops with
  | nil => intro st h; exact h
  | cons op rest ih =>
    intro st h
    exact ih _ (indexConsistent_applyOp st op h)

theorem indexConsistent_runOps (ops : List A2AOp) : IndexConsistent (runOps ops) :=
  indexConsistent_foldl ops initialA2AState indexConsistent_initial

/-- C9 counterexample: with a message logged under the empty
conversation id alongside one under `"a"`, `get_message_history("")`
returns the full two-message history, not the single message of the
`""` conversation — Python truthiness makes the empty id fall back
to the whole log. -/
theorem get_history_empty_conversation_id_mismatch :
    (get_message_history
      (runOps [.send "s1" "t" "r" [] "a" "request", .send "s2" "t" "r" [] "" "request"])
      (some "") none none).length = 2 ∧
    ((runOps [.send "s1" "t" "r" [] "a" "request",
        .send "s2" "t" "r" [] "" "request"]).message_history.filter
      (fun m => m.conversation_id = "")).length = 1 :=
  ⟨rfl, rfl⟩

/-- C9 amended: after any sequence of `send_message`,
`broadcast_message`, `send_response` and `clear_history` calls, the
history and the conversation index stay consistent — the index keys
are unique, every conversation's bucket is exactly that
conversation's slice of the history in append order, a message is in
the history iff it is indexed under its own conversation id — and
for every NON-EMPTY conversation id, `get_message_history` returns
exactly that conversation's messages in insertion order (a falsy —
empty — id falls back to the full history). -/
theorem a2a_history_index_consistent (ops : List A2AOp) (c : String) :
    (idxLookup (runOps ops).conversation_index c).getD [] =
      (runOps ops).message_history.filter (fun m => m.conversation_id = c) ∧
    ((runOps ops).conversation_index.map Prod.fst).Nodup ∧
    (∀ m : A2AMessage, m ∈ (runOps ops).message_history ↔
      m ∈ (idxLookup (runOps ops).conversation_index m.conversation_id).getD []) ∧
    (c ≠ "" → get_message_history (runOps ops) (some c) none none =
      (runOps ops).message_history.filter (fun m => m.conversation_id = c)) := by
  obtain ⟨hnd, hbk⟩ := indexConsistent_runOps ops
  refine ⟨hbk c, hnd, ?_, ?_⟩
  · intro m
    rw [hbk m.conversation_id]
    simp [List.mem_filter]
  · intro hc
    show (if pyTruthyOptStr (some c) = true then _ else _) = _
    rw [if_pos (by simpa [pyTruthyOptStr] using hc)]
    simpa [pyTruthyOptStr, get_message_history] using hbk c

/-- Witness for C9 amended, discharging the non-empty-id hypothesis
at a concrete one-message run. -/
theorem a2a_history_index_consistent_witness :
    ("a" ≠ "") ∧
    get_message_history (runOps [.send "s" "t" "r" [] "a" "request"])
        (some "a") none none =
      (runOps [.send "s" "t" "r" [] "a" "request"]).message_history.filter
        (fun m => m.conversation_id = "a") :=
  ⟨by decide, (a2a_history_index_consistent [.send "s" "t" "r" [] "a" "request"] "a").2.2.2
    (by decide)⟩

/-! ### The brace scan truncates at the LAST zero return (C6) -/

/-- One step of the Python brace-counting loop, as a fold over the
state `(brace_count, i, last_valid_pos)`. -/
def scanStep (st : Int × Nat × Nat) (c : Char) : Int × Nat × Nat :=
  if c = lbrace then (st.1 + 1, st.2.1 + 1, st.2.2)
  else if c = rbrace then
    if st.1 - 1 = 0 then (st.1 - 1, st.2.1 + 1, st.2.1 + 1)
    else (st.1 - 1, st.2.1 + 1, st.2.2)
  else (st.1, st.2.1 + 1, st.2.2)

theorem rbrace_ne_lbrace : ¬ (rbrace = lbrace) := by decide

theorem lbrace_ne_rbrace : ¬ (lbrace = rbrace) := by decide

theorem braceDelta_rbrace : braceDelta rbrace = -1 := by decide

theorem lastValidPosAux_eq_foldl (cs : List Char) :
    ∀ (count : Int) (i lvp : Nat),
    lastValidPosAux count i lvp cs = (cs.foldl scanStep (count, i, lvp)).2.2 := by
  induction cs with
  | nil => intro count i lvp; rfl
  | cons c rest ih =>
    intro count i lvp
    by_cases h1 : c = lbrace
    · simp [lastValidPosAux, scanStep, h1, lbrace_ne_rbrace, ih]
    · by_cases h2 : c = rbrace
      · by_cases h3 : count - 1 = 0
        · simp [lastValidPosAux, scanStep, h1, h2, h3, rbrace_ne_lbrace, ih]
        · simp [lastValidPosAux, scanStep, h1, h2, h3, rbrace_ne_lbrace, ih]
      · simp [lastValidPosAux, scanStep, h1, h2, ih]

theorem foldl_scanStep_count (cs : List Char) :
    ∀ (count : Int) (i lvp : Nat),
    (cs.foldl scanStep (count, i, lvp)).1 = count + braceDepth cs := by
  induction cs with
  | nil => intro count i lvp; simp [braceDepth]
  | cons c rest ih =>
    intro count i lvp
    by_cases h1 : c = lbrace
    · simp only [List.foldl_cons, scanStep, h1, if_true, lbrace_ne_rbrace, if_false,
        braceDepth, braceDelta, ih]
      omega
    · by_cases h2 : c = rbrace
      · by_cases h3 : count - 1 = 0 <;>
          · simp only [List.foldl_cons, scanStep, h1, h2, h3, rbrace_ne_lbrace, if_true,
              if_false, braceDepth, braceDelta, ih]
            omega
      · simp only [List.foldl_cons, scanStep, h1, h2, if_false, braceDepth, braceDelta, ih]
        omega

theorem foldl_scanStep_idx (cs : List Char) :
    ∀ (count : Int) (i lvp : Nat),
    (cs.foldl scanStep (count, i, lvp)).2.1 = i + cs.length := by
  induction cs with
  | nil => intro count i lvp; simp
  | cons c rest ih =>
    intro count i lvp
    by_cases h1 : c = lbrace
    · simp only [List.foldl_cons, scanStep, h1, if_true, List.length_cons, ih]
      omega
    · by_cases h2 : c = rbrace
      · by_cases h3 : count - 1 = 0 <;>
          · simp only [List.foldl_cons, scanStep, h1, h2, h3, rbrace_ne_lbrace, if_true,
              if_false, List.length_cons, ih]
            omega
      · simp only [List.foldl_cons, scanStep, h1, h2, if_false, List.length_cons, ih]
        omega

theorem braceDepth_append (xs ys : List Char) :
    braceDepth (xs ++ ys) = braceDepth xs + braceDepth ys := by
  induction xs with
  | nil => simp [braceDepth]
  | cons c rest ih => simp [braceDepth, ih]; omega

theorem lastValidPos_append_single (cs : List Char) (c : Char) :
    lastValidPos (cs ++ [c]) =
      if c = rbrace ∧ braceDepth cs - 1 = 0 then cs.length + 1 else lastValidPos cs := by
  unfold lastValidPos
  rw [lastValidPosAux_eq_foldl, List.foldl_append]
  have h1 := foldl_scanStep_count cs 0 0 0
  have h2 := foldl_scanStep_idx cs 0 0 0
  have h3 : (cs.foldl scanStep (0, 0, 0)).2.2 = lastValidPosAux 0 0 0 cs :=
    (lastValidPosAux_eq_foldl cs 0 0 0).symm
  rcases hst : cs.foldl scanStep (0, 0, 0) with ⟨cnt, idx, lvp⟩
  rw [hst] at h1 h2 h3
  simp only at h1 h2 h3
  rw [Int.zero_add] at h1
  rw [Nat.zero_add] at h2
  subst h1 h2
  simp only [List.foldl_cons, List.foldl_nil]
  by_cases hb : c = rbrace
  · by_cases hz : braceDepth cs - 1 = 0
    · simp [scanStep, hb, hz, rbrace_ne_lbrace]
    · simp [scanStep, hb, hz, rbrace_ne_lbrace, h3]
  · by_cases hbl : c = lbrace
    · simp [scanStep, hb, hbl, lbrace_ne_rbrace, h3]
    · simp [scanStep, hb, hbl, h3]

theorem zeroReturn_append_iff (cs : List Char) (c : Char) (i : Nat)
    (h : i ≤ cs.length) :
    ZeroReturn (cs ++ [c]) i ↔ ZeroReturn cs i := by
  unfold ZeroReturn
  constructor
  · rintro ⟨hpos, _, hget, hdep⟩
    refine ⟨hpos, h, ?_, ?_⟩
    · rwa [List.getElem?_append_left (by omega)] at hget
    · rwa [List.take_append_of_le_length h] at hdep
  · rintro ⟨hpos, _, hget, hdep⟩
    refine ⟨hpos, ?_, ?_, ?_⟩
    · simp only [List.length_append, List.length_singleton]
      omega
    · rwa [List.getElem?_append_left (by omega)]
    · rwa [List.take_append_of_le_length h]

theorem zeroReturn_concat_iff (cs : List Char) (c : Char) :
    ZeroReturn (cs ++ [c]) (cs.length + 1) ↔
      (c = rbrace ∧ braceDepth cs - 1 = 0) := by
  have hdepth : braceDepth (cs ++ [c]) = braceDepth cs + braceDelta c := by
    rw [braceDepth_append]
    simp [braceDepth]
  have htake : (cs ++ [c]).take (cs.length + 1) = cs ++ [c] :=
    List.take_of_length_le (by simp)
  have hget : (cs ++ [c])[cs.length + 1 - 1]? = some c := by
    simp
  unfold ZeroReturn
  rw [htake, hget, hdepth]
  constructor
  · rintro ⟨_, _, hc, hdep⟩
    have hc' : c = rbrace := Option.some_inj.1 hc
    refine ⟨hc', ?_⟩
    rw [hc', braceDelta_rbrace] at hdep
    omega
  · rintro ⟨hc, hz⟩
    subst hc
    refine ⟨by omega, ?_, rfl, ?_⟩
    · simp only [List.length_append, List.length_singleton]
      omega
    · rw [braceDelta_rbrace]
      omega

theorem lastValidPos_greatest_zeroReturn (cs : List Char) :
    ∀ i : Nat, ZeroReturn cs i →
      i ≤ lastValidPos cs ∧ ZeroReturn cs (lastValidPos cs) := by
  induction cs using List.reverseRecOn with
  | nil =>
    intro i hi
    have h1 := hi.1
    have h2 := hi.2.1
    simp only [List.length_nil] at h2
    omega
  | append_singleton cs c ih =>
    intro i hi
    rw [lastValidPos_append_single]
    by_cases hb : c = rbrace ∧ braceDepth cs - 1 = 0
    · rw [if_pos hb]
      have hle : i ≤ cs.length + 1 := by
        have := hi.2.1
        simpa using this
      exact ⟨hle, (zeroReturn_concat_iff cs c).2 hb⟩
    · rw [if_neg hb]
      have hle : i ≤ cs.length := by
        by_contra hgt
        have heq : i = cs.length + 1 := by
          have := hi.2.1
          simp only [List.length_append, List.length_singleton] at this
          omega
        rw [heq] at hi
        exact hb ((zeroReturn_concat_iff cs c).1 hi)
      have h' : ZeroReturn cs i := (zeroReturn_append_iff cs c i hle).1 hi
      obtain ⟨h1, h2⟩ := ih i h'
      exact ⟨h1, (zeroReturn_append_iff cs c _ h2.2.1).2 h2⟩

/-- C6 counterexample: on text with multiple top-level objects the
extractor does not return the parse of the first object — it returns
`None` (the scan truncates at the last zero return, keeping both
objects, which fail to parse as one document). -/
theorem extractor_multiple_objects_returns_none :
    extract_json_from_response "\x7b\"a\": 1\x7d \x7b\"b\": 2\x7d x" = none ∧
    loads "\x7b\"a\": 1\x7d" = some (.obj [("a", .num 1)]) ∧
    (some (Json.obj [("a", .num 1)]) ≠ (none : Option Json)) :=
  ⟨rfl, rfl, by simp⟩

/-- C6 amended: the brace scan records the LAST index at which the
nesting depth returns to zero — `last_valid_pos` is itself a zero
return and bounds every zero return from above — and truncation only
applies when that index lies strictly before the end of the string;
consequently text with multiple top-level objects yields `None`
(with or without trailing text), not the first object's parse. -/
theorem extractor_truncates_at_last_zero_return :
    (∀ (cs : List Char) (i : Nat), ZeroReturn cs i →
      i ≤ lastValidPos cs ∧ ZeroReturn cs (lastValidPos cs)) ∧
    extract_json_from_response "\x7b\"a\": 1\x7d \x7b\"b\": 2\x7d x" = none ∧
    extract_json_from_response "\x7b\"a\": 1\x7d \x7b\"b\": 2\x7d" = none :=
  ⟨lastValidPos_greatest_zeroReturn, rfl, rfl⟩

/-- Witness for C6 amended at a concrete zero return: in `"{} x"`
position 2 is a zero return, and `last_valid_pos` is a zero return
bounding it. -/
theorem extractor_truncates_at_last_zero_return_witness :
    ZeroReturn "\x7b\x7d x".data 2 ∧
    (2 ≤ lastValidPos "\x7b\x7d x".data ∧
      ZeroReturn "\x7b\x7d x".data (lastValidPos "\x7b\x7d x".data)) := by
  have hzr : ZeroReturn "\x7b\x7d x".data 2 :=
    ⟨by decide, by decide, by decide, by decide⟩
  exact ⟨hzr, extractor_truncates_at_last_zero_return.1 "\x7b\x7d x".data 2 hzr⟩

end ActualCode
